import Mathlib

set_option maxRecDepth 100000

/-!
Verification development for the fob-service repository: a refreshable
snapshot cache of building-access credentials sourced from Keycloak.

The definitions below are a shallow embedding of the Go source:
* the cache core (`cache.go`): `Fill`, `Load`, `Wait`, `calculateUsersHash`;
* the Keycloak record translation (`keycloak.go`): `newAccessUser`,
  `firstElOrZeroVal`, strconv-style integer parsing;
* the two versions of the refresh-driver goroutine and the HTTP handlers
  found in the two revisions of `main.go`.

Machine integers are modelled as `Nat`/`Int` with explicit `% 2^32`
wrapping where the source relies on fixed-width arithmetic (SHA-256).
The fingerprint is the real SHA-256 of the real JSON serialization, so
that equality and inequality of fingerprints on concrete inputs are
established by evaluation, not by assumption.
-/

/-! ### SHA-256 over byte lists (crypto/sha256)

Bytes and 32-bit words are `Nat` with explicit wrapping by `w32`. -/

def w32 (n : Nat) : Nat := n % 4294967296

def rotr (n x : Nat) : Nat := w32 ((x >>> n) ||| (x <<< (32 - n)))

/-- The 64 SHA-256 round constants, written in decimal. -/
def shaK : List Nat :=
  [1116352408, 1899447441, 3049323471, 3921009573, 961987163,
   1508970993, 2453635748, 2870763221, 3624381080, 310598401,
   607225278, 1426881987, 1925078388, 2162078206, 2614888103,
   3248222580, 3835390401, 4022224774, 264347078, 604807628,
   770255983, 1249150122, 1555081692, 1996064986, 2554220882,
   2821834349, 2952996808, 3210313671, 3336571891, 3584528711,
   113926993, 338241895, 666307205, 773529912, 1294757372,
   1396182291, 1695183700, 1986661051, 2177026350, 2456956037,
   2730485921, 2820302411, 3259730800, 3345764771, 3516065817,
   3600352804, 4094571909, 275423344, 430227734, 506948616,
   659060556, 883997877, 958139571, 1322822218, 1537002063,
   1747873779, 1955562222, 2024104815, 2227730452, 2361852424,
   2428436474, 2756734187, 3204031479, 3329325298]

/-- The eight SHA-256 initial hash words, written in decimal. -/
def shaH0 : List Nat :=
  [1779033703, 3144134277, 1013904242, 2773480762,
   1359893119, 2600822924, 528734635, 1541459225]

/-- Big-endian byte expansion of `n` into exactly `k` bytes. -/
def bytesBE : Nat → Nat → List Nat
  | 0, _ => []
  | k+1, n => bytesBE k (n / 256) ++ [n % 256]

/-- Split a byte list into consecutive 64-byte blocks.  Structural
recursion on a fuel argument so that the kernel can evaluate it; the fuel
`l.length` always suffices since each step consumes at least one byte. -/
def chunks64Go : Nat → List Nat → List (List Nat)
  | 0, _ => []
  | _, [] => []
  | fuel+1, l => l.take 64 :: chunks64Go fuel (l.drop 64)

def chunks64 (l : List Nat) : List (List Nat) := chunks64Go l.length l

/-- Combine bytes into big-endian 32-bit words. -/
def wordsOf : List Nat → List Nat
  | a :: b :: c :: d :: rest => (a * 16777216 + b * 65536 + c * 256 + d) :: wordsOf rest
  | _ => []

def smallSigma0 (x : Nat) : Nat := (rotr 7 x) ^^^ (rotr 18 x) ^^^ (x >>> 3)

def smallSigma1 (x : Nat) : Nat := (rotr 17 x) ^^^ (rotr 19 x) ^^^ (x >>> 10)

def bigSigma0 (x : Nat) : Nat := (rotr 2 x) ^^^ (rotr 13 x) ^^^ (rotr 22 x)

def bigSigma1 (x : Nat) : Nat := (rotr 6 x) ^^^ (rotr 11 x) ^^^ (rotr 25 x)

/-- Bitwise choice; `~x` on 32 bits is `4294967295 - x` for `x < 2^32`. -/
def chFn (x y z : Nat) : Nat := (x &&& y) ^^^ ((4294967295 - w32 x) &&& z)

def majFn (x y z : Nat) : Nat := (x &&& y) ^^^ (x &&& z) ^^^ (y &&& z)

/-- Extend the 16-word block schedule by `n` further words. -/
def extendSchedule : Nat → List Nat → List Nat
  | 0, w => w
  | n+1, w =>
    let i := w.length
    let nw := w32 (w.getD (i-16) 0 + smallSigma0 (w.getD (i-15) 0) +
                   w.getD (i-7) 0 + smallSigma1 (w.getD (i-2) 0))
    extendSchedule n (w ++ [nw])

/-- One round of the SHA-256 compression function on the 8-word state. -/
def compressStep (st : List Nat) (kw : Nat × Nat) : List Nat :=
  let a := st.getD 0 0
  let b := st.getD 1 0
  let c := st.getD 2 0
  let d := st.getD 3 0
  let e := st.getD 4 0
  let f := st.getD 5 0
  let g := st.getD 6 0
  let h := st.getD 7 0
  let t1 := w32 (h + bigSigma1 e + chFn e f g + kw.1 + kw.2)
  let t2 := w32 (bigSigma0 a + majFn a b c)
  [w32 (t1 + t2), a, b, c, w32 (d + t1), e, f, g]

/-- Process one 64-byte block. -/
def compressBlock (h : List Nat) (block : List Nat) : List Nat :=
  let w := extendSchedule 48 (wordsOf block)
  let st := (shaK.zip w).foldl compressStep h
  (h.zip st).map (fun p => w32 (p.1 + p.2))

/-- SHA-256 digest (32 bytes) of a byte list. -/
def sha256 (msg : List Nat) : List Nat :=
  let padded := msg ++ [0x80] ++ List.replicate ((64 - ((msg.length + 9) % 64)) % 64) 0 ++
                bytesBE 8 (msg.length * 8)
  let hs := (chunks64 padded).foldl compressBlock shaH0
  hs.flatMap (bytesBE 4)

/-! ### Hex encoding (encoding/hex, lowercase) -/

def hexDigitChar (n : Nat) : Char :=
  if n < 10 then Char.ofNat (48 + n) else Char.ofNat (87 + n)

def hexOfBytes (bs : List Nat) : String :=
  String.mk (bs.flatMap (fun b => [hexDigitChar (b / 16), hexDigitChar (b % 16)]))

/-! ### UTF-8 encoding of strings into bytes -/

def utf8Char (c : Char) : List Nat :=
  let n := c.toNat
  if n < 0x80 then [n]
  else if n < 0x800 then [0xC0 ||| (n >>> 6), 0x80 ||| (n &&& 0x3F)]
  else if n < 0x10000 then
    [0xE0 ||| (n >>> 12), 0x80 ||| ((n >>> 6) &&& 0x3F), 0x80 ||| (n &&& 0x3F)]
  else
    [0xF0 ||| (n >>> 18), 0x80 ||| ((n >>> 12) &&& 0x3F),
     0x80 ||| ((n >>> 6) &&& 0x3F), 0x80 ||| (n &&& 0x3F)]

def utf8Bytes (s : String) : List Nat := s.data.flatMap utf8Char

/-- Sanity check of the SHA-256 embedding against the published test vector
for the empty message. -/
theorem sha256_empty_vector :
    hexOfBytes (sha256 []) =
      "e3b0c44298fc1c149afbf4c8996fb92427ae41e4649b934ca495991b7852b855" := by
  decide

/-! ### JSON serialization (encoding/json)

`json.Marshal` of `[]*AccessUser` and its struct fields, in declaration
order, honouring the `omitempty` tags on `fobID` and `qrID`.  String
escaping follows the encoder's default HTML-escaping rules for the
ASCII range (`"` `\` control characters, and `<` `>` `&` as unicode
escapes); code points outside that range are emitted verbatim as the
encoder does for valid UTF-8. -/

def jsonEscapeChar (c : Char) : List Char :=
  if c = '"' then ['\\', '"']
  else if c = '\\' then ['\\', '\\']
  else if c = '\n' then ['\\', 'n']
  else if c = '\r' then ['\\', 'r']
  else if c = '\t' then ['\\', 't']
  else if c = '<' ∨ c = '>' ∨ c = '&' ∨ c.toNat < 32 then
    ['\\', 'u', '0', '0', hexDigitChar (c.toNat / 16), hexDigitChar (c.toNat % 16)]
  else [c]

def jsonString (s : String) : String :=
  String.mk ('"' :: s.data.flatMap jsonEscapeChar ++ ['"'])

/-- Decimal digits of a natural number, most significant first.
Fuel-driven recursion so the kernel can evaluate it; fuel `n + 1`
always suffices. -/
def natDigitsGo : Nat → Nat → List Char
  | 0, _ => []
  | _, 0 => ['0']
  | fuel+1, n =>
    if n < 10 then [Char.ofNat (48 + n)]
    else natDigitsGo fuel (n / 10) ++ [Char.ofNat (48 + n % 10)]

def natStr (n : Nat) : String := String.mk (natDigitsGo (n + 1) n)

/-- Decimal rendering of an integer, as `strconv` prints Go ints. -/
def intStr (i : Int) : String :=
  if i < 0 then "-" ++ natStr i.natAbs else natStr i.natAbs

/-! ### Data model: AccessUser (keycloak.go) -/

/-- The serialized authorization entry.  `FobID`/`QRID` are Go `int`
(zero means absent), `TTL` is milliseconds. -/
structure AccessUser where
  UserID : String
  FobID : Int
  QRID : Int
  TTL : Int
deriving DecidableEq, Repr

/-- `json.Marshal` of one `*AccessUser`: fields in struct order with
`omitempty` on `fobID` and `qrID`. -/
def marshalUser (u : AccessUser) : String :=
  "\x7b" ++ jsonString "userID" ++ ":" ++ jsonString u.UserID ++
  (if u.FobID = 0 then "" else "," ++ jsonString "fobID" ++ ":" ++ intStr u.FobID) ++
  (if u.QRID = 0 then "" else "," ++ jsonString "qrID" ++ ":" ++ intStr u.QRID) ++
  "," ++ jsonString "ttl" ++ ":" ++ intStr u.TTL ++ "\x7d"

/-- `json.Marshal` of a non-nil `[]*AccessUser` (every fetched slice is
non-nil: `ListUsers` initializes `all` to an empty literal). -/
def marshalUsers (users : List AccessUser) : String :=
  "[" ++ String.intercalate "," (users.map marshalUser) ++ "]"

/-- `json.Marshal` of a possibly-nil `[]*AccessUser`; the nil slice
serializes to `null`.  The cache state is nil until the first
successful fill. -/
def marshalUsersOpt : Option (List AccessUser) → String
  | none => "null"
  | some users => marshalUsers users

/-! ### Keycloak record translation (keycloak.go) -/

/-- The fields of `gocloak.User` that `newAccessUser` reads: both are
pointers in Go, hence `Option`.  Attributes is a string-keyed map of
string lists, modelled as an association list. -/
structure KCUser where
  ID : Option String
  Attributes : Option (List (String × List String))
deriving DecidableEq, Repr

/-- Go map indexing `attr[key]`: the zero value (nil slice) when the key
is absent. -/
def lookupAttr (attrs : List (String × List String)) (key : String) : List String :=
  match attrs.find? (fun p => p.1 == key) with
  | some p => p.2
  | none => []

/-- `firstElOrZeroVal` from keycloak.go: first element of the slice, or
the type's zero value when it is empty. -/
def firstElOrZeroVal {T : Type} [Inhabited T] (slice : List T) : T :=
  match slice with
  | [] => default
  | x :: _ => x

def isDigitChar (c : Char) : Bool := decide ('0' ≤ c) && decide (c ≤ '9')

/-- Value of a pure digit string, `none` on any non-digit. -/
def digitsVal (acc : Nat) : List Char → Option Nat
  | [] => some acc
  | c :: rest =>
    if isDigitChar c then digitsVal (acc * 10 + (c.toNat - 48)) rest else none

/-- `strconv.Atoi` as used in `newAccessUser`, whose error is discarded:
optional sign followed by at least one digit parses to its value, and any
syntactically invalid string contributes the zero value.  (Go's 64-bit
range clamping on overflow is not modelled; no claim depends on inputs of
that magnitude.) -/
def atoi (s : String) : Int :=
  let core := fun (neg : Bool) (ds : List Char) =>
    match ds, digitsVal 0 ds with
    | _ :: _, some n => if neg then -(n : Int) else (n : Int)
    | _, _ => (0 : Int)
  match s.data with
  | '+' :: rest => core false rest
  | '-' :: rest => core true rest
  | l => core false l

/-- `newAccessUser`: translates one Keycloak record into zero-or-one
`AccessUser`.  `TTL` is the constant `(time.Hour * 24).Milliseconds()`. -/
def newAccessUser (kcuser : KCUser) : Option AccessUser :=
  match kcuser.ID, kcuser.Attributes with
  | some uid, some attr =>
    let fobID := atoi (firstElOrZeroVal (lookupAttr attr "keyfobID"))
    let qrID := atoi (firstElOrZeroVal (lookupAttr attr "qrID"))
    if fobID = 0 ∧ qrID = 0 then none
    else if firstElOrZeroVal (lookupAttr attr "buildingAccessApprover") = "" then none
    else some { UserID := uid, FobID := fobID, QRID := qrID, TTL := 86400000 }
  | _, _ => none

/-- The entry list `ListUsers` accumulates: `newAccessUser` over every
fetched record, skipping the `nil` results.  `records` is the
concatenation of the pages returned by the membership endpoint. -/
def listUsersEntries (records : List KCUser) : List AccessUser :=
  records.filterMap newAccessUser

/-! ### The snapshot cache (cache.go) -/

/-- A registered watcher: a buffered channel of capacity one, identified
by `id`; `pending` is whether a signal is sitting in its buffer. -/
structure Waiter where
  id : Nat
  pending : Bool
deriving DecidableEq, Repr

/-- The cache struct.  `state` is `[]*AccessUser`, nil until the first
successful fill, hence `Option`; `hash` is the stored fingerprint;
`watchers` the set of registered notification channels.  All three are
guarded by one mutex in the source, so operations on them are modelled
as atomic state transformers. -/
structure Cache where
  state : Option (List AccessUser)
  hash : String
  watchers : List Waiter
deriving DecidableEq, Repr

/-- `newCache`: empty state, empty fingerprint, no watchers. -/
def newCache : Cache := { state := none, hash := "", watchers := [] }

/-- `sort.Slice(users, ...users[i].FobID < users[j].FobID)`.  Go's
pdqsort is deterministic but unstable in general; on the short slices of
every concrete computation below it runs insertion sort, which this
models exactly.  Ties (equal `FobID`) keep their input order. -/
def sortUsers (l : List AccessUser) : List AccessUser :=
  l.insertionSort (fun a b => a.FobID ≤ b.FobID)

/-- `calculateUsersHash`: lowercase hex of the SHA-256 digest of the
JSON serialization of the (non-nil) user slice. -/
def calculateUsersHash (users : List AccessUser) : String :=
  hexOfBytes (sha256 (utf8Bytes (marshalUsers users)))

/-- The non-blocking send `ch <- struct{}{}` on a capacity-one channel:
the buffer ends up occupied whether or not a signal was already
pending (an already-pending waiter has the extra signal dropped). -/
def signalWaiter (w : Waiter) : Waiter := { w with pending := true }

/-- `Fill`: the fetch outcome is the `fetched` argument (the external
call is the collaborator boundary).  On fetch error the error is
returned and the cache is untouched.  Otherwise the fetched list is
sorted, fingerprinted, and compared against the stored fingerprint
under the lock: equal means no-op, different means install and signal
every registered watcher.  Returns the new cache and the Go error. -/
def Fill (c : Cache) (fetched : Except String (List AccessUser)) :
    Cache × Option String :=
  match fetched with
  | Except.error e => (c, some e)
  | Except.ok users0 =>
    let users := sortUsers users0
    let hash := calculateUsersHash users
    if c.hash = hash then (c, none)
    else ({ state := some users, hash := hash,
            watchers := c.watchers.map signalWaiter }, none)

/-- `Load`: the current state and fingerprint. -/
def Load (c : Cache) : Option (List AccessUser) × String := (c.state, c.hash)

/-- Registration step of `Wait`: a fresh capacity-one channel is added
to the watcher set with an empty buffer. -/
def registerWaiter (c : Cache) (wid : Nat) : Cache :=
  { c with watchers := c.watchers ++ [{ id := wid, pending := false }] }

/-- The `<-ch` arm of the select: consumes the pending signal. -/
def clearPending (c : Cache) (wid : Nat) : Cache :=
  { c with watchers :=
      c.watchers.map (fun w => if w.id = wid then { w with pending := false } else w) }

/-- Deregistration step of `Wait`: `delete(c.watchers, ch)`. -/
def deregisterWaiter (c : Cache) (wid : Nat) : Cache :=
  { c with watchers := c.watchers.filter (fun w => w.id ≠ wid) }

/-- `Wait`: register a fresh waiter, block on the select (`notified`
tells which arm won: the channel receive or the timer), then
deregister on either path.  `wid` identifies the fresh channel. -/
def Wait (c : Cache) (wid : Nat) (notified : Bool) : Cache :=
  let c1 := registerWaiter c wid
  let c2 := if notified then clearPending c1 wid else c1
  deregisterWaiter c2 wid

/-! ### The refresh-driver goroutine (both revisions of main.go)

Durations are `time.Duration` values, i.e. nanoseconds, modelled as
`Nat` (they are never negative here).  `defaultResync` is the default
`-resync-interval`, one hour. -/

def defaultResync : Nat := 3600000000000

/-- The backoff-update block shared verbatim by both loop revisions:
floor an unset delay at 250ms, grow by half, clamp at the resync
interval. -/
def nextRetry (resync lastRetry : Nat) : Nat :=
  let r := if lastRetry = 0 then 250000000 else lastRetry
  let r2 := r + r / 2
  if r2 > resync then resync else r2

/-- What the loop does after one `Fill` before touching the trigger
channel again. -/
inductive NextAction where
  | waitTrigger
  | refetch
deriving DecidableEq, Repr

/-- Observable outcome of one loop iteration: the persisted `lastRetry`
value, the duration slept (if any), and whether the loop re-fetches
immediately or blocks on the trigger channel. -/
structure IterResult where
  lastRetry : Nat
  sleep : Option Nat
  next : NextAction
deriving DecidableEq, Repr

/-- One iteration of the first revision's loop (main.go, `goto start`):
success zeroes `lastRetry` but then falls through the same
floor/grow/clamp/sleep path as a failure, and every iteration ends in
`goto start`, i.e. an immediate re-fetch. -/
def driverIterV1 (resync lastRetry : Nat) (fillOk : Bool) : IterResult :=
  let lr0 := if fillOk then 0 else lastRetry
  let lr := nextRetry resync lr0
  { lastRetry := lr, sleep := some lr, next := NextAction.refetch }

/-- One iteration of the revised loop (`continue` on success): success
resets `lastRetry` and goes straight back to the trigger channel;
failure grows the backoff, sleeps it, and then the `for range refresh`
also goes back to the trigger channel. -/
def driverIterV2 (resync lastRetry : Nat) (fillOk : Bool) : IterResult :=
  if fillOk then { lastRetry := 0, sleep := none, next := NextAction.waitTrigger }
  else
    let lr := nextRetry resync lastRetry
    { lastRetry := lr, sleep := some lr, next := NextAction.waitTrigger }

/-- Sleep durations of consecutive failed fills starting from unset
backoff state (each slept duration equals the updated `lastRetry`,
identically in both revisions). -/
def failDelays (resync : Nat) : Nat → Nat
  | 0 => nextRetry resync 0
  | n+1 => nextRetry resync (failDelays resync n)

/-! ### HTTP handlers (both revisions of main.go)

Only the response computed from the cache is modelled; the `wait` query
parameter invokes `Wait` (above) before the load and does not otherwise
change the response. -/

/-- An HTTP response: a bare status write, or a 200 with `ETag` header
and JSON body. -/
inductive HandlerResp where
  | status (code : Nat)
  | body (code : Nat) (etag : String) (payload : String)
deriving DecidableEq, Repr

/-- `GET /v1/fobs`, first revision: 412 with no body when the state is
still nil, 304 on an `If-None-Match` fingerprint match, otherwise the
serialized list (`json.Encoder` appends a newline). -/
def fobsHandlerV1 (c : Cache) (inm : String) : HandlerResp :=
  match Load c with
  | (none, _) => HandlerResp.status 412
  | (some users, hash) =>
    if hash ≠ "" ∧ hash = inm then HandlerResp.status 304
    else HandlerResp.body 200 hash (marshalUsers users ++ "\n")

/-- `GET /healthz`, first revision: unconditionally 204. -/
def healthzV1 : HandlerResp := HandlerResp.status 204

/-- `GET /healthz`, revised: 500 until the cache has warmed, then 204. -/
def healthzV2 (c : Cache) : HandlerResp :=
  if (Load c).1 = none then HandlerResp.status 500 else HandlerResp.status 204

/-- `GET /v1/fobs`, revised: no nil check; a nil state serializes to
`null`. -/
def fobsHandlerV2 (c : Cache) (inm : String) : HandlerResp :=
  let lh := Load c
  if lh.2 ≠ "" ∧ lh.2 = inm then HandlerResp.status 304
  else HandlerResp.body 200 lh.2 (marshalUsersOpt lh.1 ++ "\n")

/-! ### Helper lemmas: a computed fingerprint is 64 hex characters -/

theorem bytesBE_length : ∀ k n, (bytesBE k n).length = k
  | 0, _ => rfl
  | k+1, n => by
    simp [bytesBE, bytesBE_length k]

theorem compressStep_length (st : List Nat) (kw : Nat × Nat) :
    (compressStep st kw).length = 8 := rfl

theorem foldl_compressStep_length :
    ∀ (l : List (Nat × Nat)) (st : List Nat), st.length = 8 →
      (l.foldl compressStep st).length = 8
  | [], _, h => h
  | kw :: l, st, _ =>
    foldl_compressStep_length l (compressStep st kw) (compressStep_length st kw)

theorem compressBlock_length (h b : List Nat) (hl : h.length = 8) :
    (compressBlock h b).length = 8 := by
  unfold compressBlock
  have hs := foldl_compressStep_length (shaK.zip (extendSchedule 48 (wordsOf b))) h hl
  simp [List.length_zip, hl, hs]

theorem foldl_compressBlock_length :
    ∀ (bs : List (List Nat)) (h : List Nat), h.length = 8 →
      (bs.foldl compressBlock h).length = 8
  | [], _, hl => hl
  | b :: bs, h, hl =>
    foldl_compressBlock_length bs (compressBlock h b) (compressBlock_length h b hl)

theorem flatMap_bytesBE4_length :
    ∀ l : List Nat, (l.flatMap (bytesBE 4)).length = 4 * l.length
  | [] => rfl
  | n :: l => by
    simp [List.flatMap_cons, flatMap_bytesBE4_length l, bytesBE_length]
    ring

theorem sha256_length (m : List Nat) : (sha256 m).length = 32 := by
  unfold sha256
  rw [flatMap_bytesBE4_length, foldl_compressBlock_length _ shaH0 rfl]

theorem flatMap_hexpair_length :
    ∀ bs : List Nat,
      (bs.flatMap (fun b => [hexDigitChar (b / 16), hexDigitChar (b % 16)])).length =
        2 * bs.length
  | [] => rfl
  | b :: bs => by
    simp [List.flatMap_cons, flatMap_hexpair_length bs]
    ring

theorem hexOfBytes_length (bs : List Nat) :
    (hexOfBytes bs).length = 2 * bs.length := by
  unfold hexOfBytes
  show (bs.flatMap _).length = 2 * bs.length
  exact flatMap_hexpair_length bs

theorem calculateUsersHash_length (users : List AccessUser) :
    (calculateUsersHash users).length = 64 := by
  unfold calculateUsersHash
  rw [hexOfBytes_length, sha256_length]

theorem calculateUsersHash_ne_empty (users : List AccessUser) :
    calculateUsersHash users ≠ "" := by
  intro h
  have := calculateUsersHash_length users
  rw [h] at this
  simp at this

/-! ### Helper lemmas: sorting and permutations -/

instance : IsTotal AccessUser (fun a b => a.FobID ≤ b.FobID) :=
  ⟨fun a b => Int.le_total a.FobID b.FobID⟩

instance : IsTrans AccessUser (fun a b => a.FobID ≤ b.FobID) :=
  ⟨fun _ _ _ hab hbc => le_trans hab hbc⟩

theorem sortUsers_perm (l : List AccessUser) : (sortUsers l).Perm l :=
  List.perm_insertionSort _ l

theorem sortUsers_sorted (l : List AccessUser) :
    List.Sorted (fun a b => a.FobID ≤ b.FobID) (sortUsers l) :=
  List.sorted_insertionSort _ l

/-- Two sorted lists that are permutations of each other and whose
`FobID` keys are pairwise distinct are equal.  (Sorting is only by
`FobID`, so without distinctness this fails — see the fingerprint
counterexample below.) -/
theorem sorted_nodup_fob_eq :
    ∀ (s₁ s₂ : List AccessUser), s₁.Perm s₂ →
      List.Sorted (fun a b => a.FobID ≤ b.FobID) s₁ →
      List.Sorted (fun a b => a.FobID ≤ b.FobID) s₂ →
      (s₁.map AccessUser.FobID).Nodup → s₁ = s₂
  | [], s₂, hp, _, _, _ => (hp.nil_eq).symm ▸ rfl
  | a :: t₁, [], hp, _, _, _ => absurd hp.symm (by simp)
  | a :: t₁, b :: t₂, hp, hs₁, hs₂, hnd => by
    have hab : a = b := by
      have ha : a ∈ b :: t₂ := hp.mem_iff.mp (List.mem_cons_self a t₁)
      rcases List.mem_cons.mp ha with h | ha₂
      · exact h
      · have hb : b ∈ a :: t₁ := hp.mem_iff.mpr (List.mem_cons_self b t₂)
        rcases List.mem_cons.mp hb with h | hb₁
        · exact h.symm
        · -- both heads are buried in the other tail: their keys agree,
          -- contradicting distinctness
          have hba : b.FobID ≤ a.FobID := List.rel_of_sorted_cons hs₂ a ha₂
          have hab' : a.FobID ≤ b.FobID := List.rel_of_sorted_cons hs₁ b hb₁
          have hkey : a.FobID = b.FobID := le_antisymm hab' hba
          rw [List.map_cons, List.nodup_cons] at hnd
          exact absurd (List.mem_map_of_mem AccessUser.FobID hb₁)
            (by rw [← hkey] at *; exact fun hmem => hnd.1 (hkey ▸ hmem))
    subst hab
    have ht : t₁.Perm t₂ := hp.cons_inv
    have := sorted_nodup_fob_eq t₁ t₂ ht hs₁.of_cons hs₂.of_cons
      (by rw [List.map_cons, List.nodup_cons] at hnd; exact hnd.2)
    rw [this]

/-- Sorting is invariant under permutation when the `FobID` keys are
pairwise distinct. -/
theorem sortUsers_eq_of_perm (l₁ l₂ : List AccessUser) (hp : l₁.Perm l₂)
    (hnd : (l₁.map AccessUser.FobID).Nodup) : sortUsers l₁ = sortUsers l₂ := by
  refine sorted_nodup_fob_eq _ _ ?_ (sortUsers_sorted l₁) (sortUsers_sorted l₂) ?_
  · exact (sortUsers_perm l₁).trans (hp.trans (sortUsers_perm l₂).symm)
  · exact (((sortUsers_perm l₁).map AccessUser.FobID).nodup_iff).mpr hnd

/-! ### Helper lemmas: record translation -/

/-- Inversion of `newAccessUser`: everything that must have been true of
a record for it to produce an entry, and what the entry contains. -/
theorem newAccessUser_some_inv (r : KCUser) (u : AccessUser)
    (h : newAccessUser r = some u) :
    r.ID = some u.UserID ∧
    ∃ attr, r.Attributes = some attr ∧
      u.FobID = atoi (firstElOrZeroVal (lookupAttr attr "keyfobID")) ∧
      u.QRID = atoi (firstElOrZeroVal (lookupAttr attr "qrID")) ∧
      (u.FobID ≠ 0 ∨ u.QRID ≠ 0) ∧
      firstElOrZeroVal (lookupAttr attr "buildingAccessApprover") ≠ "" ∧
      u.TTL = 86400000 := by
  rcases r with ⟨oid, oattrs⟩
  cases oid with
  | none => simp [newAccessUser] at h
  | some uid =>
    cases oattrs with
    | none => simp [newAccessUser] at h
    | some attr =>
      simp only [newAccessUser] at h
      split_ifs at h with h1 h2
      rw [Option.some_inj] at h
      subst h
      refine ⟨rfl, attr, rfl, rfl, rfl, ?_, h2, rfl⟩
      by_cases hf : atoi (firstElOrZeroVal (lookupAttr attr "keyfobID")) = 0
      · exact Or.inr (fun hq => h1 ⟨hf, hq⟩)
      · exact Or.inl hf

/-! ### Helper lemmas: backoff arithmetic -/

theorem nextRetry_le (resync lastRetry : Nat) : nextRetry resync lastRetry ≤ resync := by
  simp only [nextRetry]
  split_ifs <;> omega

theorem nextRetry_pos (resync lastRetry : Nat) (hR : 0 < resync) :
    0 < nextRetry resync lastRetry := by
  rcases Nat.eq_zero_or_pos lastRetry with h0 | h0
  · subst h0
    simp only [nextRetry, if_pos rfl]
    split_ifs <;> omega
  · have hne : lastRetry ≠ 0 := by omega
    simp only [nextRetry, if_neg hne]
    split_ifs <;> omega

theorem nextRetry_of_pos (resync d : Nat) (hd : 0 < d) :
    nextRetry resync d = min resync (d + d / 2) := by
  have hne : d ≠ 0 := by omega
  simp only [nextRetry, if_neg hne]
  split_ifs <;> omega

theorem failDelays_pos (resync : Nat) (hR : 0 < resync) :
    ∀ n, 0 < failDelays resync n
  | 0 => nextRetry_pos resync 0 hR
  | _n+1 => nextRetry_pos resync _ hR

theorem failDelays_le (resync : Nat) : ∀ n, failDelays resync n ≤ resync
  | 0 => nextRetry_le resync 0
  | _n+1 => nextRetry_le resync _

/-! ### Helper lemmas: watcher bookkeeping -/

theorem waiter_filter_fresh (ws : List Waiter) (wid : Nat)
    (h : ∀ w ∈ ws, w.id ≠ wid) : ws.filter (fun w => w.id ≠ wid) = ws := by
  induction ws with
  | nil => rfl
  | cons w t ih =>
    rw [List.filter_cons_of_pos (by simpa using h w (List.mem_cons_self w t)),
        ih (fun x hx => h x (List.mem_cons_of_mem w hx))]

theorem waiter_map_clear_fresh (ws : List Waiter) (wid : Nat)
    (h : ∀ w ∈ ws, w.id ≠ wid) :
    ws.map (fun w => if w.id = wid then { w with pending := false } else w) = ws := by
  induction ws with
  | nil => rfl
  | cons w t ih =>
    rw [List.map_cons, if_neg (h w (List.mem_cons_self w t)),
        ih (fun x hx => h x (List.mem_cons_of_mem w hx))]

/-- The warmth invariant of C9: the fingerprint is the empty-string
sentinel exactly when the snapshot slice is still nil. -/
def warmInv (c : Cache) : Prop := c.hash = "" ↔ c.state = none

/-- A successful fill of a cache satisfying the warmth invariant leaves
a non-nil state and a nonempty fingerprint (whether or not it installs). -/
theorem fill_ok_warm (c : Cache) (users0 : List AccessUser) (hc : warmInv c) :
    (Fill c (Except.ok users0)).1.state ≠ none ∧
    (Fill c (Except.ok users0)).1.hash ≠ "" := by
  simp only [Fill]
  split_ifs with heq
  · have hne : c.hash ≠ "" := fun h0 =>
      calculateUsersHash_ne_empty (sortUsers users0) (heq.symm.trans h0)
    exact ⟨fun hst => hne (hc.mpr hst), hne⟩
  · exact ⟨by simp, calculateUsersHash_ne_empty (sortUsers users0)⟩

/-! ### The claims -/

/-- C3 counterexample: with the default one-hour resync interval, the
first backoff sleep after a failed fill from unset state is 375ms in
both loop revisions, not the 250ms the claim states; moreover in the
first revision a success itself runs the grow-and-sleep path, so the
failure following a success sleeps 562.5ms there. -/
theorem backoff_first_delay_counterexample :
    (driverIterV2 defaultResync 0 false).sleep = some 375000000 ∧
    (driverIterV1 defaultResync 0 false).sleep = some 375000000 ∧
    (driverIterV1 defaultResync (driverIterV1 defaultResync 0 true).lastRetry false).sleep =
      some 562500000 ∧
    (375000000 : Nat) ≠ 250000000 := by
  decide

/-- C3 amended: starting from unset backoff state with the default
one-hour ceiling, consecutive failed fills sleep 375ms, 562.5ms,
843.75ms, each subsequent delay 1.5 times (`d + d / 2` in integer
nanoseconds) the previous one, clamped at the resync interval; the
slept duration always equals the updated `lastRetry`.  In the revised
loop a success resets `lastRetry` to 0, so the delay following the
next failure is 375ms again; in the first revision a success is itself
followed by the grow-and-sleep path, leaving `lastRetry` at 375ms. -/
theorem backoff_sequence_amended :
    failDelays defaultResync 0 = 375000000 ∧
    failDelays defaultResync 1 = 562500000 ∧
    failDelays defaultResync 2 = 843750000 ∧
    (∀ n, failDelays defaultResync (n+1) =
        min defaultResync
          (failDelays defaultResync n + failDelays defaultResync n / 2)) ∧
    (∀ n, failDelays defaultResync n ≤ defaultResync) ∧
    (∀ lastRetry, (driverIterV2 defaultResync lastRetry false).sleep =
        some (nextRetry defaultResync lastRetry) ∧
      (driverIterV2 defaultResync lastRetry false).lastRetry =
        nextRetry defaultResync lastRetry) ∧
    (∀ lastRetry, (driverIterV2 defaultResync lastRetry true).lastRetry = 0) ∧
    (∀ lastRetry, (driverIterV1 defaultResync lastRetry true).lastRetry = 375000000) := by
  refine ⟨by decide, by decide, by decide, ?_, failDelays_le defaultResync,
    fun _ => ⟨rfl, rfl⟩, fun _ => rfl,
    fun _ => by norm_num [driverIterV1, nextRetry, defaultResync]⟩
  intro n
  exact nextRetry_of_pos defaultResync _ (failDelays_pos defaultResync (by decide) n)

/-- C5 counterexample: in the revised loop a failed fill is followed by
a backoff sleep and then a return to waiting on the trigger channel,
not an immediate retry of the same triggered refresh; and in the first
revision a successful fill does not return to waiting: it sleeps 375ms
and re-fetches unconditionally via `goto start`. -/
theorem driver_loop_counterexample :
    (driverIterV2 defaultResync 0 false).next = NextAction.waitTrigger ∧
    NextAction.waitTrigger ≠ NextAction.refetch ∧
    (driverIterV1 defaultResync 0 true).sleep = some 375000000 ∧
    (driverIterV1 defaultResync 0 true).next = NextAction.refetch := by
  decide

/-- C5 amended: in the revised loop, a successful fill resets the
backoff delay to unset and returns to waiting for the next trigger
without sleeping or re-fetching, while a failed fill sleeps the grown
backoff and then likewise returns to waiting for the next trigger (a
retry only happens when a new trigger — e.g. the periodic resync tick —
arrives).  In the first revision, every iteration, successful or not,
sleeps the grown backoff and re-fetches immediately without waiting for
a trigger. -/
theorem driver_loop_amended :
    (∀ resync lastRetry, driverIterV2 resync lastRetry true =
        { lastRetry := 0, sleep := none, next := NextAction.waitTrigger }) ∧
    (∀ resync lastRetry, driverIterV2 resync lastRetry false =
        { lastRetry := nextRetry resync lastRetry,
          sleep := some (nextRetry resync lastRetry),
          next := NextAction.waitTrigger }) ∧
    (∀ resync lastRetry fillOk, driverIterV1 resync lastRetry fillOk =
        { lastRetry := nextRetry resync (if fillOk then 0 else lastRetry),
          sleep := some (nextRetry resync (if fillOk then 0 else lastRetry)),
          next := NextAction.refetch }) :=
  ⟨fun _ _ => rfl, fun _ _ => rfl, fun _ _ fillOk => by cases fillOk <;> rfl⟩

/-- C6: when the external fetch fails, `Fill` returns the error with the
cache state — snapshot, fingerprint and watcher set — exactly unchanged
and no waiter signalled, so a subsequent `Load` observes the last
installed snapshot; on a never-filled cache that is the absent state. -/
theorem fill_error_no_mutation (c : Cache) (e : String) :
    Fill c (Except.error e) = (c, some e) ∧
    Load (Fill c (Except.error e)).1 = Load c ∧
    Load newCache = (none, "") :=
  ⟨rfl, rfl, rfl⟩

/-- C10: every `AccessUser` produced by `newAccessUser` has `TTL` equal
to 86,400,000 milliseconds (24 hours), whatever the record's attributes
hold. -/
theorem ttl_constant (r : KCUser) (u : AccessUser)
    (h : newAccessUser r = some u) : u.TTL = 86400000 := by
  obtain ⟨-, attr, -, -, -, -, -, httl⟩ := newAccessUser_some_inv r u h
  exact httl

/-- Witness for C10 at a concrete record. -/
theorem ttl_constant_witness :
    newAccessUser
        ⟨some "x", some [("keyfobID", ["5"]), ("buildingAccessApprover", ["board"])]⟩ =
      some ⟨"x", 5, 0, 86400000⟩ ∧
    (⟨"x", 5, 0, 86400000⟩ : AccessUser).TTL = 86400000 :=
  ⟨by decide,
   ttl_constant
     ⟨some "x", some [("keyfobID", ["5"]), ("buildingAccessApprover", ["board"])]⟩ _
     (by decide)⟩

/-- C1: a `Fill` whose fetched candidate's fingerprint equals the stored
fingerprint leaves the cache exactly unchanged (no state mutation, no
signal); one whose fingerprint differs — including every first
successful call, since the stored empty-string sentinel can never equal
a computed 64-character fingerprint — installs the sorted candidate and
its fingerprint as the new state in one atomic update and leaves a
signal pending in every currently registered watcher's channel (a
watcher already holding a pending signal keeps exactly one: the
non-blocking send is dropped). -/
theorem fill_replaceIfChanged_spec (c : Cache) (users0 : List AccessUser) :
    (calculateUsersHash (sortUsers users0) = c.hash →
      Fill c (Except.ok users0) = (c, none)) ∧
    (calculateUsersHash (sortUsers users0) ≠ c.hash →
      Fill c (Except.ok users0) =
        ({ state := some (sortUsers users0),
           hash := calculateUsersHash (sortUsers users0),
           watchers := c.watchers.map signalWaiter }, none)) ∧
    (∀ w, w ∈ c.watchers.map signalWaiter → w.pending = true) ∧
    (c.hash = "" →
      Fill c (Except.ok users0) =
        ({ state := some (sortUsers users0),
           hash := calculateUsersHash (sortUsers users0),
           watchers := c.watchers.map signalWaiter }, none)) := by
  refine ⟨?_, ?_, ?_, ?_⟩
  · intro h
    simp only [Fill]
    rw [if_pos h.symm]
  · intro h
    simp only [Fill]
    rw [if_neg (fun hh => h hh.symm)]
  · intro w hw
    obtain ⟨w', -, rfl⟩ := List.mem_map.mp hw
    rfl
  · intro h0
    simp only [Fill]
    rw [if_neg (fun hh =>
      calculateUsersHash_ne_empty (sortUsers users0) (hh.symm.trans h0))]

/-- Witness for C1: the first fill of a fresh cache installs, and an
immediately repeated fill of identical content is a no-op. -/
theorem fill_replaceIfChanged_spec_witness :
    Fill newCache (Except.ok []) =
      ({ state := some (sortUsers []),
         hash := calculateUsersHash (sortUsers []),
         watchers := [] }, none) ∧
    Fill { state := some (sortUsers []),
           hash := calculateUsersHash (sortUsers []),
           watchers := [] } (Except.ok []) =
      ({ state := some (sortUsers []),
         hash := calculateUsersHash (sortUsers []),
         watchers := [] }, none) :=
  ⟨(fill_replaceIfChanged_spec newCache []).2.2.2 rfl,
   (fill_replaceIfChanged_spec _ []).1 rfl⟩

/-- C7: a `Wait` with a fresh waiter channel, whichever way its select
resolves (change notification or timer), deregisters the waiter it
registered, returning the cache — watcher set included — to exactly its
value before the call; hence arbitrarily many wait/timeout cycles leave
the watcher set unchanged. -/
theorem wait_no_leak (c : Cache) (wid : Nat) (notified : Bool)
    (hfresh : wid ∉ c.watchers.map Waiter.id) :
    Wait c wid notified = c := by
  have hne : ∀ w ∈ c.watchers, w.id ≠ wid := fun w hw heq =>
    hfresh (heq ▸ List.mem_map_of_mem Waiter.id hw)
  have hfilter : (c.watchers ++ [({ id := wid, pending := false } : Waiter)]).filter
      (fun w => w.id ≠ wid) = c.watchers := by
    rw [List.filter_append, waiter_filter_fresh c.watchers wid hne]
    simp
  cases notified
  · show deregisterWaiter (registerWaiter c wid) wid = c
    simp only [deregisterWaiter, registerWaiter]
    rw [hfilter]
  · show deregisterWaiter (clearPending (registerWaiter c wid) wid) wid = c
    simp only [deregisterWaiter, clearPending, registerWaiter, List.map_append,
      List.map_cons, List.map_nil, if_pos]
    rw [waiter_map_clear_fresh c.watchers wid hne, hfilter]

/-- Witness for C7 at a concrete cache holding one other waiter. -/
theorem wait_no_leak_witness :
    ((7 : Nat) ∉ ([{ id := 5, pending := false }] : List Waiter).map Waiter.id) ∧
    Wait { state := none, hash := "", watchers := [{ id := 5, pending := false }] } 7 true =
      { state := none, hash := "", watchers := [{ id := 5, pending := false }] } :=
  ⟨by decide, wait_no_leak _ 7 true (by decide)⟩

/-- C9: the fingerprint is the empty string exactly when the snapshot
slice is nil: the invariant holds for `newCache`, is preserved by every
`Fill` (error, unchanged and install outcomes alike) and by `Wait`; a
computed fingerprint is always a 64-character string, hence nonempty,
and a successful fill of a cache satisfying the invariant always leaves
a non-nil slice paired with a nonempty fingerprint, so `Load` lets
callers distinguish an empty authorized list from an unwarmed cache. -/
theorem warm_fingerprint_invariant :
    warmInv newCache ∧
    (∀ c fetched, warmInv c → warmInv (Fill c fetched).1) ∧
    (∀ c wid notified, warmInv c → warmInv (Wait c wid notified)) ∧
    (∀ users, (calculateUsersHash users).length = 64 ∧
      calculateUsersHash users ≠ "") ∧
    (∀ c users0, warmInv c →
      (Fill c (Except.ok users0)).1.state ≠ none ∧
      (Fill c (Except.ok users0)).1.hash ≠ "") := by
  refine ⟨⟨fun _ => rfl, fun _ => rfl⟩, ?_, ?_, ?_, fun c users0 => fill_ok_warm c users0⟩
  · intro c fetched hc
    cases fetched with
    | error e => exact hc
    | ok users0 =>
      have h := fill_ok_warm c users0 hc
      exact ⟨fun hh => absurd hh h.2, fun hs => absurd hs h.1⟩
  · intro c wid notified hc
    cases notified
    · exact hc
    · exact hc
  · exact fun users => ⟨calculateUsersHash_length users, calculateUsersHash_ne_empty users⟩

/-- Witness for C9: the invariant survives a concrete fill and a
concrete wait on the fresh cache. -/
theorem warm_fingerprint_invariant_witness :
    warmInv (Fill newCache (Except.ok [])).1 ∧ warmInv (Wait newCache 3 true) :=
  ⟨warm_fingerprint_invariant.2.1 newCache (Except.ok [])
     (by simp [warmInv, newCache]),
   warm_fingerprint_invariant.2.2.1 newCache 3 true
     (by simp [warmInv, newCache])⟩

/-- C4: every entry of a fetched snapshot was produced by
`newAccessUser` from some record of the fetch, such a record necessarily
had a non-null ID (which becomes the entry's `UserID`), non-null
attributes, a nonempty `buildingAccessApprover` marker and at least one
nonzero credential ID (which the entry keeps); records failing any of
these conditions yield `nil` — silent exclusion, never an error. -/
theorem entry_filtering_spec :
    (∀ records u, u ∈ listUsersEntries records →
      (u.FobID ≠ 0 ∨ u.QRID ≠ 0) ∧ ∃ r, r ∈ records ∧ newAccessUser r = some u) ∧
    (∀ r u, newAccessUser r = some u →
      r.ID = some u.UserID ∧ r.Attributes ≠ none ∧
      (u.FobID ≠ 0 ∨ u.QRID ≠ 0) ∧
      (∀ attr, r.Attributes = some attr →
        firstElOrZeroVal (lookupAttr attr "buildingAccessApprover") ≠ "")) ∧
    (∀ r, r.ID = none ∨ r.Attributes = none → newAccessUser r = none) ∧
    (∀ r attr, r.Attributes = some attr →
      atoi (firstElOrZeroVal (lookupAttr attr "keyfobID")) = 0 →
      atoi (firstElOrZeroVal (lookupAttr attr "qrID")) = 0 →
      newAccessUser r = none) ∧
    (∀ r attr, r.Attributes = some attr →
      firstElOrZeroVal (lookupAttr attr "buildingAccessApprover") = "" →
      newAccessUser r = none) := by
  refine ⟨?_, ?_, ?_, ?_, ?_⟩
  · intro records u hu
    obtain ⟨r, hr, hru⟩ := List.mem_filterMap.mp hu
    obtain ⟨-, attr, -, -, -, hcred, -, -⟩ := newAccessUser_some_inv r u hru
    exact ⟨hcred, r, hr, hru⟩
  · intro r u h
    obtain ⟨hID, attr, hattr, -, -, hcred, happr, -⟩ := newAccessUser_some_inv r u h
    refine ⟨hID, by rw [hattr]; exact fun hc => Option.noConfusion hc, hcred, ?_⟩
    intro attr2 hattr2
    rw [hattr] at hattr2
    rw [← Option.some_inj.mp hattr2]
    exact happr
  · intro r hor
    obtain ⟨oid, oattr⟩ := r
    rcases hor with h | h
    · replace h : oid = none := h
      subst h
      cases oattr <;> rfl
    · replace h : oattr = none := h
      subst h
      cases oid <;> rfl
  · intro r attr hattr hfob hqr
    obtain ⟨oid, oattr⟩ := r
    replace hattr : oattr = some attr := hattr
    subst hattr
    cases oid with
    | none => rfl
    | some uid =>
      simp only [newAccessUser]
      rw [if_pos ⟨hfob, hqr⟩]
  · intro r attr hattr happr
    obtain ⟨oid, oattr⟩ := r
    replace hattr : oattr = some attr := hattr
    subst hattr
    cases oid with
    | none => rfl
    | some uid =>
      simp only [newAccessUser]
      by_cases hc : atoi (firstElOrZeroVal (lookupAttr attr "keyfobID")) = 0 ∧
          atoi (firstElOrZeroVal (lookupAttr attr "qrID")) = 0
      · rw [if_pos hc]
      · rw [if_neg hc, if_pos happr]

/-- Witness for C4: the spec's end-to-end example — record `a` with no
credential IDs is excluded, record `b` with fob 5 and an approver
yields the single snapshot entry. -/
theorem entry_filtering_spec_witness :
    ((⟨"b", 5, 0, 86400000⟩ : AccessUser).FobID ≠ 0 ∨
      (⟨"b", 5, 0, 86400000⟩ : AccessUser).QRID ≠ 0) ∧
    (∃ r, r ∈ [(⟨some "a", some []⟩ : KCUser),
               ⟨some "b", some [("keyfobID", ["5"]),
                                ("buildingAccessApprover", ["chair"])]⟩] ∧
      newAccessUser r = some ⟨"b", 5, 0, 86400000⟩) ∧
    newAccessUser ⟨some "a", some []⟩ = none ∧
    listUsersEntries [⟨some "a", some []⟩,
      ⟨some "b", some [("keyfobID", ["5"]), ("buildingAccessApprover", ["chair"])]⟩] =
      [⟨"b", 5, 0, 86400000⟩] := by
  have h := entry_filtering_spec.1
    [⟨some "a", some []⟩,
     ⟨some "b", some [("keyfobID", ["5"]), ("buildingAccessApprover", ["chair"])]⟩]
    ⟨"b", 5, 0, 86400000⟩ (by decide)
  exact ⟨h.1, h.2, by decide, by decide⟩

/-- C8: with a never-filled cache, the first revision's `/v1/fobs`
answers 412 (a bare status, no body) and never does so once the state
is non-nil — so an empty authorized list (`[]` body) is distinguishable
from a never-synced cache; the revised handler drops the 412 but its
`/healthz` fails with 500 exactly until the state is non-nil, which a
successful fill makes true and every later fill keeps true. -/
theorem unwarmed_distinct_signal :
    (∀ c inm, c.state = none → fobsHandlerV1 c inm = HandlerResp.status 412) ∧
    (∀ c inm users, c.state = some users →
      fobsHandlerV1 c inm ≠ HandlerResp.status 412) ∧
    (∀ c, c.state = none → healthzV2 c = HandlerResp.status 500) ∧
    (∀ c, c.state ≠ none → healthzV2 c = HandlerResp.status 204) ∧
    (∀ c fetched, c.state ≠ none → (Fill c fetched).1.state ≠ none) ∧
    (∀ c users0, warmInv c → (Fill c (Except.ok users0)).1.state ≠ none) := by
  refine ⟨?_, ?_, ?_, ?_, ?_, fun c users0 hc => (fill_ok_warm c users0 hc).1⟩
  · intro c inm hst
    simp [fobsHandlerV1, Load, hst]
  · intro c inm users hst
    simp only [fobsHandlerV1, Load, hst]
    split_ifs <;> simp
  · intro c hst
    simp [healthzV2, Load, hst]
  · intro c hst
    simp [healthzV2, Load, hst]
  · intro c fetched hst
    cases fetched with
    | error e => exact hst
    | ok users0 =>
      simp only [Fill]
      split_ifs
      · exact hst
      · simp

/-- Witness for C8 at the fresh cache and at a warmed cache holding an
empty authorized list. -/
theorem unwarmed_distinct_signal_witness :
    fobsHandlerV1 newCache "" = HandlerResp.status 412 ∧
    healthzV2 newCache = HandlerResp.status 500 ∧
    fobsHandlerV1 { state := some [], hash := "h", watchers := [] } "" ≠
      HandlerResp.status 412 ∧
    healthzV2 { state := some [], hash := "h", watchers := [] } =
      HandlerResp.status 204 :=
  ⟨unwarmed_distinct_signal.1 newCache "" rfl,
   unwarmed_distinct_signal.2.2.1 newCache rfl,
   unwarmed_distinct_signal.2.1 _ "" [] rfl,
   unwarmed_distinct_signal.2.2.2.1 _ (by simp)⟩

/-- C2 counterexample: two lists holding the same two entries in
opposite orders — both entries tied on `fobCredentialID` 0 (each valid
through its nonzero QR credential) — keep their input order through the
fob-keyed sort, serialize differently, and get different fingerprints;
consequently a second fill whose fetch returns a permutation of the
stored content does mutate the cache. -/
theorem fingerprint_perm_counterexample :
    List.Perm [(⟨"a", 0, 1, 86400000⟩ : AccessUser), ⟨"b", 0, 2, 86400000⟩]
      [⟨"b", 0, 2, 86400000⟩, ⟨"a", 0, 1, 86400000⟩] ∧
    calculateUsersHash
        (sortUsers [(⟨"a", 0, 1, 86400000⟩ : AccessUser), ⟨"b", 0, 2, 86400000⟩]) ≠
      calculateUsersHash
        (sortUsers [⟨"b", 0, 2, 86400000⟩, ⟨"a", 0, 1, 86400000⟩]) ∧
    (Fill (Fill newCache
          (Except.ok [(⟨"a", 0, 1, 86400000⟩ : AccessUser), ⟨"b", 0, 2, 86400000⟩])).1
        (Except.ok [⟨"b", 0, 2, 86400000⟩, ⟨"a", 0, 1, 86400000⟩])).1 ≠
      (Fill newCache
        (Except.ok [(⟨"a", 0, 1, 86400000⟩ : AccessUser), ⟨"b", 0, 2, 86400000⟩])).1 :=
  ⟨List.Perm.swap _ _ _, by decide, by decide⟩

/-- C2 amended: two fetched lists that are permutations of each other
*and whose entries carry pairwise-distinct fobCredentialIDs* sort to
the same list and hence to equal fingerprints, so a second fill whose
fetch returns such a permutation of the stored content detects no
change and performs no mutation and no wake-up.  (Without the
distinctness proviso the sort is keyed on `fobCredentialID` alone, so
the relative order of tied entries — and with it the fingerprint —
follows fetch order, per the counterexample.) -/
theorem fingerprint_perm_distinct_fobs (l₁ l₂ : List AccessUser)
    (hp : l₁.Perm l₂) (hnd : (l₁.map AccessUser.FobID).Nodup) :
    sortUsers l₁ = sortUsers l₂ ∧
    calculateUsersHash (sortUsers l₁) = calculateUsersHash (sortUsers l₂) ∧
    ∀ c, c.hash = calculateUsersHash (sortUsers l₁) →
      Fill c (Except.ok l₂) = (c, none) := by
  have hs := sortUsers_eq_of_perm l₁ l₂ hp hnd
  refine ⟨hs, by rw [hs], ?_⟩
  intro c hc
  simp only [Fill]
  rw [if_pos (by rw [hc, hs])]

/-- Witness for C2's amended statement: filling with two distinct-fob
entries and then re-filling with the opposite order is a no-op. -/
theorem fingerprint_perm_distinct_fobs_witness :
    Fill (Fill newCache
        (Except.ok [(⟨"a", 1, 0, 86400000⟩ : AccessUser), ⟨"b", 2, 0, 86400000⟩])).1
      (Except.ok [⟨"b", 2, 0, 86400000⟩, ⟨"a", 1, 0, 86400000⟩]) =
      ((Fill newCache
        (Except.ok [(⟨"a", 1, 0, 86400000⟩ : AccessUser), ⟨"b", 2, 0, 86400000⟩])).1,
       none) :=
  (fingerprint_perm_distinct_fobs _ _ (List.Perm.swap _ _ _) (by decide)).2.2 _
    (by decide)
